import Mathlib

/-!
Shallow embedding of the k8s-zabbix watch-and-dispatch engine
(`base/daemon_thread.py`, `k8sobjects/k8sobject.py`,
`k8sobjects/k8sresourcemanager.py`, `k8sobjects/pod.py`,
`k8sobjects/service.py`) together with proofs about its store,
projection, gating and reconciliation behaviour.

Timestamps (`datetime`) are modelled as integers; `datetime.now()` is
threaded through as an explicit `now` parameter.  Dictionaries are
modelled as association lists that keep Python's insertion order:
assignment to an existing key replaces the value in place, assignment to
a fresh key appends.
-/

namespace K8sZabbix

/-- Timestamps; `INITIAL_DATE` (2000-01-01) is the smallest value used. -/
abbrev Time := Int

/-- The sentinel timestamp `datetime.datetime(2000, 1, 1, 0, 0)`. -/
def INITIAL_DATE : Time := 0

/-! ## Association-list model of Python dictionaries -/

/-- Dictionary lookup `d.get(u)` / `u in d`. -/
def alookup {α : Type} (l : List (String × α)) (u : String) : Option α :=
  (l.find? (fun e => e.1 == u)).map Prod.snd

/-- Replacement of the value stored at an existing key, keeping its position. -/
def aset {α : Type} (l : List (String × α)) (u : String) (v : α) : List (String × α) :=
  l.map (fun e => if e.1 == u then (u, v) else e)

/-- Dictionary deletion `del d[u]` (keys are unique in a dict). -/
def aerase {α : Type} (l : List (String × α)) (u : String) : List (String × α) :=
  l.filter (fun e => !(e.1 == u))

/-- Dictionary assignment `d[u] = v`: replace in place if present, else append. -/
def adset {α : Type} (l : List (String × α)) (u : String) (v : α) : List (String × α) :=
  if (alookup l u).isSome then aset l u v else l ++ [(u, v)]

/-! ## Raw object data

A raw cluster object (the `to_dict()` of an upstream event) is modelled by
the fields the engine actually reads.  `payload` stands for the remainder
of the dictionary, which only feeds the content checksum. -/

/-- One entry of a container's `state` dictionary in `Pod.resource_data`:
the state name together with the state object; the outer option is `none`
when the state object is null, the inner option models the optional
`reason` field (absent or null collapse to the same behaviour as the
`try/except` in the source, see `reasonOf`). -/
structure StateEntry where
  status : String
  info : Option (Option String)
deriving DecidableEq, Repr

/-- One element of `status.container_statuses` of a pod.  A null or empty
`state` dictionary is modelled by the empty list (both skip the loop). -/
structure ContainerStatusRaw where
  name : String
  ready : Bool
  restart_count : Int
  state : List StateEntry
deriving DecidableEq, Repr

/-- The parts of a raw pod read by `Pod`: `status.phase`,
`status.container_statuses` (absent and null collapse to `none`),
`spec.containers[*].name`, `metadata.generate_name` and
`metadata.owner_references[0].kind` (missing, null or unreadable
collapse to `none`, matching the `try/except` in `Pod.base_name`). -/
structure PodRaw where
  phase : String
  container_statuses : Option (List ContainerStatusRaw)
  spec_containers : List String
  generate_name : Option String
  owner_kind : Option String
deriving DecidableEq, Repr, Inhabited

/-- A raw object dictionary: `metadata.name`, `metadata.namespace`
(the empty string models a falsy namespace, which the source code turns
into an exception for namespaced kinds; theorems therefore carry
nonempty-namespace hypotheses), `status.load_balancer.ingress` for
services, the pod-specific parts for pods, and an opaque `payload` for
everything else that feeds the checksum. -/
structure ObjData where
  name : String
  name_space : String
  ingress : Option String
  podInfo : Option PodRaw
  payload : String
deriving DecidableEq, Repr

/-- Checksum `calculate_checksum_for_dict`: the MD5 hex digest of the
canonical JSON serialisation of the raw dictionary.  The engine only ever
compares checksums for equality, so the hash is modelled by the serialised
content itself (faithful up to MD5 collisions). -/
def calculate_checksum_for_dict (data : ObjData) : ObjData := data

/-! ## K8sObject and its bookkeeping fields -/

/-- The per-record state of `K8sObject.__init__` plus the bookkeeping
fields mutated by the resource manager and the daemon. -/
structure K8sObject where
  is_dirty_zabbix : Bool
  is_dirty_web : Bool
  added : Time
  last_sent_zabbix_discovery : Time
  last_sent_zabbix : Time
  last_sent_web : Time
  resource : String
  data : ObjData
  data_checksum : ObjData
deriving DecidableEq, Repr

/-- Constructor `K8sObject.__init__`: both dirty flags start true, all
timestamps start at the sentinel `INITIAL_DATE`. -/
def mkK8sObject (obj_data : ObjData) (resource : String) : K8sObject :=
  { is_dirty_zabbix := true
    is_dirty_web := true
    added := INITIAL_DATE
    last_sent_zabbix_discovery := INITIAL_DATE
    last_sent_zabbix := INITIAL_DATE
    last_sent_web := INITIAL_DATE
    resource := resource
    data := obj_data
    data_checksum := calculate_checksum_for_dict obj_data }

/-- Store key `K8sObject.uid` for a namespaced resource class:
`object_type + "_" + name_space + "_" + name`.  In the source an empty
namespace raises before the second branch can be taken for namespaced
kinds; theorems restrict to nonempty namespaces accordingly. -/
def uidOf (object_type : String) (d : ObjData) : String :=
  if d.name_space ≠ "" then object_type ++ "_" ++ d.name_space ++ "_" ++ d.name
  else object_type ++ "_" ++ d.name

/-! ## K8sResourceManager -/

/-- The store of one resource kind: `K8sResourceManager.objects` keyed by
uid, together with the resource name and the class label used for uids. -/
structure K8sResourceManager where
  resource : String
  object_type : String
  objects : List (String × K8sObject)
deriving DecidableEq, Repr

/-- Operation `K8sResourceManager.add_obj`: insert a fresh record with
`added = now`, or, when the stored checksum differs, copy the bookkeeping
timestamps forward, force both dirty flags and replace the record; when
the checksum is unchanged the store is untouched and the stored record is
returned. -/
def K8sResourceManager.add_obj (m : K8sResourceManager) (new_obj : K8sObject)
    (now : Time) : K8sResourceManager × K8sObject :=
  let u := uidOf m.object_type new_obj.data
  match alookup m.objects u with
  | none =>
      let stored := { new_obj with added := now }
      ({ m with objects := m.objects ++ [(u, stored)] }, stored)
  | some old =>
      if old.data_checksum ≠ new_obj.data_checksum then
        let upd := { new_obj with
          last_sent_zabbix_discovery := old.last_sent_zabbix_discovery
          last_sent_zabbix := old.last_sent_zabbix
          last_sent_web := old.last_sent_web
          added := old.added
          is_dirty_web := true
          is_dirty_zabbix := true }
        ({ m with objects := aset m.objects u upd }, upd)
      else (m, old)

/-- Operation `K8sResourceManager.add_obj_from_data`: construct the
record from raw data and upsert it.  The managers modelled here all have
a resource class, so the early-None branch of the source is not taken. -/
def K8sResourceManager.add_obj_from_data (m : K8sResourceManager) (data : ObjData)
    (now : Time) : K8sResourceManager × K8sObject :=
  m.add_obj (mkK8sObject data m.resource) now

/-- Operation `K8sResourceManager.del_obj` called with a uid string:
`self.objects[obj]` raises `KeyError` when the uid is absent, modelled by
`none`; otherwise the entry is removed and returned. -/
def K8sResourceManager.del_obj_by_uid (m : K8sResourceManager) (u : String) :
    Option (K8sResourceManager × K8sObject) :=
  match alookup m.objects u with
  | none => none
  | some o => some ({ m with objects := aerase m.objects u }, o)

/-- Operation `K8sResourceManager.del_obj` called with raw dict data: a
record is freshly constructed from the data, the entry is removed when
present, and the freshly constructed record is returned in either case. -/
def K8sResourceManager.del_obj_by_data (m : K8sResourceManager) (d : ObjData) :
    K8sResourceManager × K8sObject :=
  let resourced_obj := mkK8sObject d m.resource
  let u := uidOf m.object_type resourced_obj.data
  if (alookup m.objects u).isSome then
    ({ m with objects := aerase m.objects u }, resourced_obj)
  else (m, resourced_obj)

/-! ## Sink call records and configuration -/

/-- One metric item `(host, key, value)` handed to the metric sink. -/
structure ZabbixMetric where
  host : String
  key : String
  value : String
deriving DecidableEq, Repr

/-- One inventory-sink call of `send_to_web_api`: the resource, the
identifying parts of the projected payload, the configured cluster tag and
the action verb. -/
structure WebApiCall where
  resource : String
  obj_name : String
  obj_name_space : String
  cluster : String
  action : String
deriving DecidableEq, Repr

/-- The configuration knobs read by the modelled code paths.
`namespace_exclude_re` models `config.namespace_exclude_re and
re.match(config.namespace_exclude_re, namespace)` as a Boolean predicate
on the namespace string; an unconfigured filter is the constantly false
predicate. -/
structure Config where
  namespace_exclude_re : String → Bool
  zabbix_resources : List String
  web_api_resources : List String
  web_api_enable : Bool
  web_api_cluster : String
  zabbix_single_debug : Bool
  rate_limit_seconds : Int
  data_resend_interval : Int
  zabbix_host : String

/-! ## Sink adapters -/

/-- Method `CheckKubernetesDaemon.send_to_web_api`: filtered by
`web_api_resources`, suppressed when the web api is disabled; otherwise
one POST of the projected payload (with the cluster tag) and the action. -/
def send_to_web_api (cfg : Config) (resource : String) (obj : K8sObject)
    (action : String) : List WebApiCall :=
  if resource ∉ cfg.web_api_resources then []
  else if cfg.web_api_enable then
    [⟨resource, obj.data.name, obj.data.name_space, cfg.web_api_cluster, action⟩]
  else []

/-- Method `CheckKubernetesDaemon.delete_object`: propagate a deletion to
the inventory sink with the lowercase action verb. -/
def delete_object (cfg : Config) (resource_type : String)
    (resourced_obj : K8sObject) : List WebApiCall :=
  send_to_web_api cfg resource_type resourced_obj "deleted"

/-- The tail of `CheckKubernetesDaemon.send_data_to_zabbix` after the two
discovery gates: resource filter, metric defaulting from the object, and
delivery as one batch (or one batch per item in single-debug mode).  The
returned list contains one element per call to the metric sink. -/
def send_data_to_zabbix_core (cfg : Config) (resource : String)
    (obj : Option K8sObject) (metrics0 : List ZabbixMetric)
    (metricsOf : K8sObject → List ZabbixMetric) : List (List ZabbixMetric) :=
  if resource ∉ cfg.zabbix_resources then []
  else
    let metrics :=
      match obj with
      | some o => if metrics0.isEmpty then metricsOf o else metrics0
      | none => metrics0
    if metrics.isEmpty then []
    else if cfg.zabbix_single_debug then metrics.map (fun mtr => [mtr])
    else [metrics]

/-- Method `CheckKubernetesDaemon.send_data_to_zabbix`: returns without
touching the sink when the resource has no entry in `discovery_sent`, or
when the single object was admitted after the last discovery push;
otherwise defers to `send_data_to_zabbix_core`. -/
def send_data_to_zabbix (cfg : Config) (discovery_sent : List (String × Time))
    (resource : String) (obj : Option K8sObject)
    (metrics0 : Option (List ZabbixMetric))
    (metricsOf : K8sObject → List ZabbixMetric) : List (List ZabbixMetric) :=
  match alookup discovery_sent resource with
  | none => []
  | some t =>
      match obj with
      | some o =>
          if o.added > t then []
          else send_data_to_zabbix_core cfg resource (some o) (metrics0.getD []) metricsOf
      | none => send_data_to_zabbix_core cfg resource none (metrics0.getD []) metricsOf

/-! ## Single-object dispatch and the watch event handler -/

/-- Method `CheckKubernetesDaemon.send_object`: per-sink rate limiting of
a single-object send.  On a permitted zabbix send the timestamp is set and
the dirty flag cleared regardless of whether `send_data_to_zabbix`
actually delivered anything; a rate-limited send leaves the dirty flag
set. -/
def send_object (cfg : Config) (discovery_sent : List (String × Time))
    (resource : String) (resourced_obj : K8sObject) (event_type : String)
    (send_zabbix_data send_web : Bool) (now : Time)
    (metricsOf : K8sObject → List ZabbixMetric) :
    K8sObject × List (List ZabbixMetric) × List WebApiCall :=
  let zr :=
    if send_zabbix_data then
      if resourced_obj.last_sent_zabbix < now - cfg.rate_limit_seconds then
        ({ resourced_obj with last_sent_zabbix := now, is_dirty_zabbix := false },
          send_data_to_zabbix cfg discovery_sent resource (some resourced_obj) none metricsOf)
      else ({ resourced_obj with is_dirty_zabbix := true }, [])
    else (resourced_obj, [])
  let obj₁ := zr.1
  let wr :=
    if send_web then
      if obj₁.last_sent_web < now - cfg.rate_limit_seconds then
        let calls := send_to_web_api cfg resource obj₁ event_type
        let obj₂ := { obj₁ with last_sent_web := now }
        (if obj₂.is_dirty_web && !send_zabbix_data then { obj₂ with is_dirty_web := false }
         else obj₂, calls)
      else ({ obj₁ with is_dirty_web := true }, [])
    else (obj₁, [])
  (wr.1, zr.2, wr.2)

/-- Python `event_type.lower()` on the ASCII event type strings. -/
def str_lower (s : String) : String := String.mk (s.data.map Char.toLower)

/-- Method `CheckKubernetesDaemon.watch_event_handler`: drop the event
when the namespace filter matches, upsert and dispatch on ADDED or
MODIFIED (mutations of the dispatched object are visible in the store,
modelled by writing the result back), delete and notify the inventory
sink on DELETED, and ignore any other event type. -/
def watch_event_handler (cfg : Config) (discovery_sent : List (String × Time))
    (resource : String) (m : K8sResourceManager) (event_type : String)
    (obj : ObjData) (now : Time) (metricsOf : K8sObject → List ZabbixMetric) :
    K8sResourceManager × List (List ZabbixMetric) × List WebApiCall :=
  let namespace_str := obj.name_space
  if cfg.namespace_exclude_re namespace_str then (m, [], [])
  else if str_lower event_type == "added" || str_lower event_type == "modified" then
    let r := m.add_obj_from_data obj now
    let m₁ := r.1
    let resourced_obj := r.2
    if resourced_obj.is_dirty_zabbix || resourced_obj.is_dirty_web then
      let s := send_object cfg discovery_sent resource resourced_obj event_type
        resourced_obj.is_dirty_zabbix resourced_obj.is_dirty_web now metricsOf
      ({ m₁ with objects := aset m₁.objects (uidOf m.object_type resourced_obj.data) s.1 },
        s.2.1, s.2.2)
    else (m₁, [], [])
  else if str_lower event_type == "deleted" then
    let r := m.del_obj_by_data obj
    (r.1, [], delete_object cfg resource r.2)
  else (m, [], [])

/-! ## Periodic resend -/

/-- One iteration of the zabbix loop of
`CheckKubernetesDaemon.resend_data`: skip a record admitted after the last
discovery push; otherwise, when the record is outdated, collect its
metrics, stamp `last_sent_zabbix` and clear the dirty flag. -/
def resend_zabbix_step (cfg : Config) (discovery_sent : List (String × Time))
    (resource : String) (now : Time) (metricsOf : K8sObject → List ZabbixMetric)
    (acc : List (String × K8sObject) × List ZabbixMetric) (e : String × K8sObject) :
    List (String × K8sObject) × List ZabbixMetric :=
  let o := e.2
  let skip :=
    match alookup discovery_sent resource with
    | some t => decide (o.added > t)
    | none => false
  if skip then (acc.1 ++ [e], acc.2)
  else if o.last_sent_zabbix < now - cfg.data_resend_interval then
    (acc.1 ++ [(e.1, { o with last_sent_zabbix := now, is_dirty_zabbix := false })],
      acc.2 ++ metricsOf o)
  else (acc.1 ++ [e], acc.2)

/-- One iteration of the web loop of `CheckKubernetesDaemon.resend_data`:
ADDED for never-submitted records, MODIFIED for dirty or outdated ones;
the timestamp is stamped and the dirty flag cleared for every record. -/
def resend_web_step (cfg : Config) (resource : String) (now : Time)
    (acc : List (String × K8sObject) × List WebApiCall) (e : String × K8sObject) :
    List (String × K8sObject) × List WebApiCall :=
  let o := e.2
  let calls :=
    if o.is_dirty_web then
      if o.last_sent_web == INITIAL_DATE then send_to_web_api cfg resource o "ADDED"
      else send_to_web_api cfg resource o "MODIFIED"
    else
      if o.last_sent_web == INITIAL_DATE then send_to_web_api cfg resource o "ADDED"
      else if o.last_sent_web < now - cfg.data_resend_interval then
        send_to_web_api cfg resource o "MODIFIED"
      else []
  (acc.1 ++ [(e.1, { o with last_sent_web := now, is_dirty_web := false })], acc.2 ++ calls)

/-- Method `CheckKubernetesDaemon.resend_data`: a no-op for `containers`,
for a missing store, and for an empty store; otherwise the zabbix loop
runs over every record, the collected batch is delivered only when the
resource has an entry in `discovery_sent`, and the web loop follows. -/
def resend_data (cfg : Config) (discovery_sent : List (String × Time))
    (resource : String) (store : Option K8sResourceManager) (now : Time)
    (metricsOf : K8sObject → List ZabbixMetric) :
    Option K8sResourceManager × List (List ZabbixMetric) × List WebApiCall :=
  if resource == "containers" then (store, [], [])
  else
    match store with
    | none => (none, [], [])
    | some m =>
        if m.objects.isEmpty then (some m, [], [])
        else
          let z := m.objects.foldl
            (resend_zabbix_step cfg discovery_sent resource now metricsOf) ([], [])
          let zcalls :=
            if z.2.length > 0 then
              if (alookup discovery_sent resource).isNone then []
              else send_data_to_zabbix cfg discovery_sent resource none (some z.2) metricsOf
            else []
          let w := z.1.foldl (resend_web_step cfg resource now) ([], [])
          (some { m with objects := w.1 }, zcalls, w.2)

/-! ## Pod projection -/

/-- Reason extraction of `Pod.resource_data`: the `try/except` collapses a
missing state object, a missing `reason` key and a null reason to the
empty string (all three compare identically against `"Completed"` and
`"ImagePullBackOff"` in the source). -/
def reasonOf (info : Option (Option String)) : String :=
  match info with
  | some (some r) => r
  | _ => ""

/-- Per-container aggregation record of `Pod.resource_data`:
`{restart_count, ready, not_ready, status}`. -/
structure ContainerAgg where
  restart_count : Int
  ready : Int
  not_ready : Int
  status : String
deriving DecidableEq, Repr, Inhabited

/-- The initial per-container record with `status = "OK"`. -/
def initialAgg : ContainerAgg := ⟨0, 0, 0, "OK"⟩

/-- The projected pod record of `Pod.resource_data`.  The `json.dumps`
round trips of the source are modelled by keeping the structured values. -/
structure PodResData where
  name : String
  name_space : String
  containers : List (String × Int)
  ready : Bool
  container_status : List (String × ContainerAgg)
  pod_data : ContainerAgg
deriving DecidableEq, Repr

/-- The condition of `Pod.resource_data` under which a state entry
appends `"Terminated"`: a non-null state object under the key
`terminated` whose reason is not `"Completed"`. -/
def terminated_entry_flag (entry : StateEntry) : Bool :=
  entry.info.isSome && (entry.status == "terminated")
    && !(reasonOf entry.info == "Completed")

/-- One iteration of the state loop of `Pod.resource_data`: append
`"Terminated"` for a non-null terminated state whose reason is not
`"Completed"`; append `"ImagePullBackOff"` and bump both `not_ready`
counters when the phase is Pending and the reason says so. -/
def state_entry_step (phase : String)
    (acc : List String × ContainerAgg × ContainerAgg) (entry : StateEntry) :
    List String × ContainerAgg × ContainerAgg :=
  let sv := acc.1
  let cur := acc.2.1
  let pd := acc.2.2
  let reason := reasonOf entry.info
  let sv :=
    if terminated_entry_flag entry then
      sv ++ ["Terminated"]
    else sv
  if (phase == "Pending") && (reason == "ImagePullBackOff") then
    (sv ++ ["ImagePullBackOff"],
      { cur with not_ready := cur.not_ready + 1 },
      { pd with not_ready := pd.not_ready + 1 })
  else (sv, cur, pd)

/-- One iteration of the container loop of `Pod.resource_data` over the
state `(container_status, pod_data, ready_flag)`. -/
def process_container (phase : String)
    (st : List (String × ContainerAgg) × ContainerAgg × Bool)
    (container : ContainerStatusRaw) :
    List (String × ContainerAgg) × ContainerAgg × Bool :=
  let container_status := st.1
  let pod_data := st.2.1
  let ready_flag := st.2.2
  let cur := (alookup container_status container.name).getD initialAgg
  let cur := { cur with restart_count := cur.restart_count + container.restart_count }
  let pod_data :=
    { pod_data with restart_count := pod_data.restart_count + container.restart_count }
  let rdy :=
    if container.ready then
      ({ cur with ready := cur.ready + 1 }, { pod_data with ready := pod_data.ready + 1 })
    else if !(phase == "Succeeded") && !(phase == "Running") && !(phase == "Pending") then
      ({ cur with not_ready := cur.not_ready + 1 },
        { pod_data with not_ready := pod_data.not_ready + 1 })
    else (cur, pod_data)
  let sres := container.state.foldl (state_entry_step phase) ([], rdy.1, rdy.2)
  let status_values := sres.1
  let cur := sres.2.1
  let pod_data := sres.2.2
  if status_values.length > 0 then
    let cur := { cur with status := "ERROR: " ++ String.intercalate "," status_values }
    (adset container_status container.name cur, { pod_data with status := cur.status }, false)
  else (adset container_status container.name cur, pod_data, ready_flag)

/-- Projection `Pod.resource_data`: the `containers` count map over
`spec.containers[*].name` and the per-container and pod-level status
aggregation over `status.container_statuses`. -/
def pod_resource_data (object_name name_space : String) (p : PodRaw) : PodResData :=
  let containers := p.spec_containers.foldl
    (fun (acc : List (String × Int)) n =>
      match alookup acc n with
      | some v => aset acc n (v + 1)
      | none => acc ++ [(n, 1)]) []
  let st := (p.container_statuses.getD []).foldl (process_container p.phase)
    ([], initialAgg, true)
  { name := object_name, name_space := name_space, containers := containers,
    ready := st.2.2, container_status := st.1, pod_data := st.2.1 }

/-- Lowercase hexadecimal digit as used by the ReplicaSet suffix pattern. -/
def isLowerHexDigit (c : Char) : Bool :=
  c.isDigit || ('a' ≤ c && c ≤ 'f')

/-- Substitution `re.sub(r'-\d+-$', '', s)` of `Pod.base_name`. -/
def strip_job_suffix (s : String) : String :=
  match s.data.reverse with
  | '-' :: rest =>
      let ds := rest.takeWhile Char.isDigit
      if ds.length > 0 && ((rest.drop ds.length).headD ' ' == '-') then
        String.mk ((rest.drop (ds.length + 1)).reverse)
      else s
  | _ => s

/-- Substitution `re.sub(r'-[a-f0-9]{4,}-$', '', s)` of `Pod.base_name`. -/
def strip_replicaset_suffix (s : String) : String :=
  match s.data.reverse with
  | '-' :: rest =>
      let ds := rest.takeWhile isLowerHexDigit
      if ds.length ≥ 4 && ((rest.drop ds.length).headD ' ' == '-') then
        String.mk ((rest.drop (ds.length + 1)).reverse)
      else s
  | _ => s

/-- Substitution `re.sub(r'-$', '', s)` of `Pod.base_name`. -/
def strip_trailing_dash (s : String) : String :=
  match s.data.reverse with
  | '-' :: rest => String.mk rest.reverse
  | _ => s

/-- Property `Pod.base_name`: `metadata.generate_name` (when truthy,
otherwise the real name) stripped of the generator suffix selected by the
owner kind. -/
def base_name (d : ObjData) : String :=
  let p := d.podInfo.getD default
  let generate_name :=
    match p.generate_name with
    | some g => if g == "" then d.name else g
    | none => d.name
  match p.owner_kind with
  | some "Job" => strip_job_suffix generate_name
  | some "ReplicaSet" => strip_replicaset_suffix generate_name
  | _ => strip_trailing_dash generate_name

/-! ## Aggregation and global reporting -/

/-- Field `Service.resource_data` entry `is_ingress`: true iff
`status.load_balancer.ingress` is not null. -/
def service_is_ingress (d : ObjData) : Bool := d.ingress.isSome

/-- The merge of `report_global_data_zabbix` for a repeated container
name: integer fields add element-wise, the status is overwritten exactly
when the incoming value starts with `"ERROR"`. -/
def merge_container_data (old incoming : ContainerAgg) : ContainerAgg :=
  { restart_count := old.restart_count + incoming.restart_count
    ready := old.ready + incoming.ready
    not_ready := old.not_ready + incoming.not_ready
    status := if incoming.status.startsWith "ERROR" then incoming.status else old.status }

/-- The container aggregation loop of
`CheckKubernetesDaemon.report_global_data_zabbix`: group the per-container
records of every pod by `(namespace, base_name, container_name)` in a
nested dictionary. -/
def aggregate_containers (pods : K8sResourceManager) :
    List (String × List (String × List (String × ContainerAgg))) :=
  pods.objects.foldl (fun acc e =>
    let o := e.2
    let ns := o.data.name_space
    let acc := if (alookup acc ns).isSome then acc else acc ++ [(ns, [])]
    let rd := pod_resource_data o.data.name ns (o.data.podInfo.getD default)
    let pod_base_name := base_name o.data
    let nsMap := (alookup acc ns).getD []
    let nsMap := rd.container_status.foldl (fun nsMap ce =>
        let baseMap := (alookup nsMap pod_base_name).getD []
        let baseMap :=
          match alookup baseMap ce.1 with
          | none => baseMap ++ [(ce.1, ce.2)]
          | some old => aset baseMap ce.1 (merge_container_data old ce.2)
        adset nsMap pod_base_name baseMap) nsMap
    adset acc ns nsMap) []

/-- Method `CheckKubernetesDaemon.report_global_data_zabbix`: return
without any sink call when the resource has no entry in `discovery_sent`;
otherwise aggregate (service counts or container rollup) and deliver the
batch through `send_data_to_zabbix`.  The per-container metric
constructor (`get_container_zabbix_metrics`, an external module of the
repository) is passed in as a parameter. -/
def report_global_data_zabbix (cfg : Config) (discovery_sent : List (String × Time))
    (resource : String) (services pods : K8sResourceManager)
    (containerMetricsOf : String → String → String → String → ContainerAgg →
      List ZabbixMetric) : List (List ZabbixMetric) :=
  if (alookup discovery_sent resource).isNone then []
  else if resource == "services" then
    let counts := services.objects.foldl (fun (acc : Nat × Nat) e =>
        (acc.1 + 1, if service_is_ingress e.2.data then acc.2 + 1 else acc.2)) (0, 0)
    let data_to_send : List ZabbixMetric :=
      [⟨cfg.zabbix_host, "check_kubernetes[get,services,num_services]", toString counts.1⟩,
       ⟨cfg.zabbix_host, "check_kubernetes[get,services,num_ingress_services]",
         toString counts.2⟩]
    send_data_to_zabbix cfg discovery_sent resource none (some data_to_send) (fun _ => [])
  else if resource == "containers" then
    let agg := aggregate_containers pods
    let data_to_send := agg.foldl (fun acc nsE =>
        nsE.2.foldl (fun acc bE =>
          bE.2.foldl (fun acc cE =>
            acc ++ containerMetricsOf cfg.zabbix_host nsE.1 bE.1 cE.1 cE.2) acc) acc) []
    send_data_to_zabbix cfg discovery_sent resource none (some data_to_send) (fun _ => [])
  else []

/-! ## Relist reconciliation -/

/-- One iteration of `K8sObject.get_uid_list_and_data` over the raw list:
append the uid and store the freshly constructed record in the uid
dictionary. -/
def get_uid_step (m : K8sResourceManager)
    (acc : List String × List (String × K8sObject)) (d : ObjData) :
    List String × List (String × K8sObject) :=
  let n := mkK8sObject d m.resource
  let u := uidOf m.object_type n.data
  (acc.1 ++ [u], adset acc.2 u n)

/-- Method `K8sObject.get_uid_list_and_data` applied to the authoritative
list returned by `list_all`: the uid list (duplicates kept) and the uid
dictionary of freshly constructed records (later duplicates overwrite). -/
def get_uid_list_and_data (m : K8sResourceManager) (raw_list : List ObjData) :
    List String × List (String × K8sObject) :=
  raw_list.foldl (get_uid_step m) ([], [])

/-- One iteration of the relist loop of
`CheckKubernetesDaemon.update_discovery` at a copied store key: delete
the uid when it is absent from the authoritative uid list, upsert the
freshly fetched record when it is present.  The two `none` fallbacks are
unreachable (the uid list and the dictionary are built together, and a
processed key is still a key of the store). -/
def reconcile_step (obj_uid_list : List String)
    (obj_data_list : List (String × K8sObject)) (now : Time)
    (acc : K8sResourceManager) (obj_uid : String) : K8sResourceManager :=
  if obj_uid ∉ obj_uid_list then
    match acc.del_obj_by_uid obj_uid with
    | some res => res.1
    | none => acc
  else
    match alookup obj_data_list obj_uid with
    | some o => (acc.add_obj o now).1
    | none => acc

/-- The relist block of `CheckKubernetesDaemon.update_discovery`: walk a
copy of the store keys, deleting orphans and refreshing survivors. -/
def reconcile (m : K8sResourceManager) (raw_list : List ObjData) (now : Time) :
    K8sResourceManager :=
  let obj_uid_list := (get_uid_list_and_data m raw_list).1
  let obj_data_list := (get_uid_list_and_data m raw_list).2
  (m.objects.map Prod.fst).foldl (reconcile_step obj_uid_list obj_data_list now) m

/-! ## Traces of store mutations -/

/-- One store-mutating step of a per-kind pipeline: a watch event fed to
the event dispatcher, or a relist reconciliation. -/
inductive DaemonStep where
  | watchEv (event_type : String) (obj : ObjData) (now : Time)
  | relist (raw_list : List ObjData) (now : Time)

/-- The effect of one step on the store of a kind. -/
def apply_step (cfg : Config) (discovery_sent : List (String × Time))
    (resource : String) (metricsOf : K8sObject → List ZabbixMetric)
    (m : K8sResourceManager) : DaemonStep → K8sResourceManager
  | .watchEv et obj now =>
      (watch_event_handler cfg discovery_sent resource m et obj now metricsOf).1
  | .relist raw_list now => reconcile m raw_list now

/-- The store after a sequence of steps. -/
def run_steps (cfg : Config) (discovery_sent : List (String × Time))
    (resource : String) (metricsOf : K8sObject → List ZabbixMetric)
    (m : K8sResourceManager) (steps : List DaemonStep) : K8sResourceManager :=
  steps.foldl (apply_step cfg discovery_sent resource metricsOf) m

/-- The well-formedness domain of the namespace-exclusion analysis:
namespaces are nonempty (the source raises otherwise) and contain no
underscore (so distinct namespaces yield distinct uids). -/
def WfData (d : ObjData) : Prop :=
  '_' ∉ d.name_space.data ∧ d.name_space ≠ ""

/-- Well-formedness of one trace step. -/
def WfStep : DaemonStep → Prop
  | .watchEv _ obj _ => WfData obj
  | .relist raw_list _ => ∀ x ∈ raw_list, WfData x

/-- The store invariant of the namespace-exclusion analysis: every entry
is keyed by the uid of its record, and its namespace is well formed and
not matched by the exclusion filter. -/
def StoreInvObjs (cfg : Config) (T : String)
    (objects : List (String × K8sObject)) : Prop :=
  ∀ e ∈ objects,
    e.1 = uidOf T e.2.data ∧
    cfg.namespace_exclude_re e.2.data.name_space = false ∧
    WfData e.2.data

/-- The store invariant on a resource manager. -/
def StoreInv (cfg : Config) (m : K8sResourceManager) : Prop :=
  StoreInvObjs cfg m.object_type m.objects

/-! ## Slug -/

/-- Python slice `s[:i]` on the character list of a string. -/
def pySliceTo (l : List Char) (i : Int) : List Char :=
  if i < 0 then l.take (l.length - (-i).toNat) else l.take i.toNat

/-- Python slice `s[i:]` on the character list of a string. -/
def pySliceFrom (l : List Char) (i : Int) : List Char :=
  if i < 0 then l.drop (l.length - (-i).toNat) else l.drop i.toNat

/-- The slug string of `slugit` before truncation. -/
def slug_of (name_space name : String) : String :=
  if name_space ≠ "" then name_space ++ "/" ++ name else name

/-- Function `slugit`: the slug unchanged when short enough, otherwise
`slug[:int(maxlen/2 - 1)] + "~" + slug[len(slug) - int(maxlen/2) - 2:]`.
The float expressions are exact dyadics for any realistic `maxlen`, so
`int()` truncation is integer truncated division. -/
def slugit (name_space name : String) (maxlen : Nat) : String :=
  let slug := slug_of name_space name
  if slug.length ≤ maxlen then slug
  else
    let prefix_pos : Int := Int.tdiv ((maxlen : Int) - 2) 2
    let suffix_pos : Int := (slug.length : Int) - ((maxlen / 2 : Nat) : Int) - 2
    String.mk (pySliceTo slug.data prefix_pos ++ '~' :: pySliceFrom slug.data suffix_pos)

/-! ## Derived predicates and sample values used in statements -/

/-- A container status that carries a non-null `terminated` state entry
whose reason is not `"Completed"` (the condition appending
`"Terminated"` in `Pod.resource_data`). -/
def has_bad_terminated (c : ContainerStatusRaw) : Bool :=
  c.state.any terminated_entry_flag

/-- A configuration with no namespace filter, every modelled kind active
for both sinks, and the default intervals. -/
def sampleConfig : Config :=
  { namespace_exclude_re := fun _ => false
    zabbix_resources := ["pods", "services", "containers"]
    web_api_resources := ["pods", "services", "containers"]
    web_api_enable := true
    web_api_cluster := "c1"
    zabbix_single_debug := false
    rate_limit_seconds := 30
    data_resend_interval := 60
    zabbix_host := "k8s" }

/-- An empty services store. -/
def emptyServicesStore : K8sResourceManager := ⟨"services", "service", []⟩

/-- A metric constructor standing in for a kind-specific
`get_zabbix_metrics` that returns one item. -/
def sampleMetricsOf : K8sObject → List ZabbixMetric :=
  fun _ => [⟨"k8s", "check_kubernetesd[get,pods,n,p,status]", "1"⟩]

/-- A dirty record awaiting its first send: admitted at time 5, never
sent, both dirty flags set. -/
def sampleDirtyRecord : K8sObject :=
  ⟨true, true, 5, INITIAL_DATE, INITIAL_DATE, INITIAL_DATE, "pods",
    ⟨"p", "n", none, none, "x"⟩, ⟨"p", "n", none, none, "x"⟩⟩

/-- A pods store holding only `sampleDirtyRecord`. -/
def sampleDirtyStore : K8sResourceManager :=
  ⟨"pods", "pod", [("pod_n_p", sampleDirtyRecord)]⟩

/-- A raw pod with one container terminated for reason OOMKilled. -/
def samplePodTerminated : PodRaw :=
  { phase := "Running"
    container_statuses := some [⟨"c", false, 2, [⟨"terminated", some (some "OOMKilled")⟩]⟩]
    spec_containers := ["c"]
    generate_name := some "p-"
    owner_kind := none }

/-- A raw pod with one healthy running container. -/
def samplePodHealthy : PodRaw :=
  { phase := "Running"
    container_statuses := some [⟨"c", true, 0, [⟨"running", some none⟩]⟩]
    spec_containers := ["c"]
    generate_name := some "p-"
    owner_kind := none }

/-- A configuration whose namespace filter models
`re.match("ba_d", namespace)`: namespaces starting with `ba_d` are
excluded (prefix semantics of a literal pattern). -/
def exclConfig : Config :=
  { sampleConfig with
      namespace_exclude_re := fun s => List.isPrefixOf "ba_d".data s.data }

/-- A raw pod in namespace `ba` named `d_x`; its uid is `pod_ba_d_x`. -/
def collideData1 : ObjData := ⟨"d_x", "ba", none, none, "1"⟩

/-- A raw pod in the excluded namespace `ba_d` named `x`; its uid is the
same string `pod_ba_d_x`. -/
def collideData2 : ObjData := ⟨"x", "ba_d", none, none, "2"⟩

/-! ## Small dictionary lemmas -/

theorem alookup_nil {α : Type} (u : String) : alookup ([] : List (String × α)) u = none := rfl

theorem alookup_cons {α : Type} (k : String) (v : α) (l : List (String × α)) (u : String) :
    alookup ((k, v) :: l) u = if k = u then some v else alookup l u := by
  unfold alookup
  by_cases h : k = u
  · rw [List.find?_cons_of_pos _ (by simpa using h)]
    simp [h]
  · rw [List.find?_cons_of_neg _ (by simpa using h)]
    simp [h]

theorem alookup_append {α : Type} (l l' : List (String × α)) (u : String) :
    alookup (l ++ l') u = (alookup l u).or (alookup l' u) := by
  unfold alookup
  rw [List.find?_append]
  cases List.find? (fun e => e.1 == u) l <;> simp

theorem aset_cons {α : Type} (k' k : String) (v' v : α) (t : List (String × α)) :
    aset ((k', v') :: t) k v = (if k' = k then (k, v) else (k', v')) :: aset t k v := by
  by_cases h : k' = k <;> simp [aset, h]

theorem aerase_cons {α : Type} (k' k : String) (v' : α) (t : List (String × α)) :
    aerase ((k', v') :: t) k = if k' = k then aerase t k else (k', v') :: aerase t k := by
  by_cases h : k' = k <;> simp [aerase, h]

theorem alookup_aset {α : Type} (l : List (String × α)) (k u : String) (v : α) :
    alookup (aset l k v) u =
      if k = u then (alookup l u).map (fun _ => v) else alookup l u := by
  induction l with
  | nil => by_cases h : k = u <;> simp [aset, alookup_nil, h]
  | cons e t ih =>
      obtain ⟨k', v'⟩ := e
      rw [aset_cons]
      by_cases hk : k' = k
      · subst hk
        by_cases hu : k' = u <;> simp [alookup_cons, hu, ih]
      · by_cases hu : k' = u
        · subst hu
          have hku : ¬ k = k' := fun h => hk h.symm
          simp [hk, alookup_cons, hku, ih]
        · simp [hk, alookup_cons, hu, ih]

theorem alookup_aerase {α : Type} (l : List (String × α)) (k u : String) :
    alookup (aerase l k) u = if k = u then none else alookup l u := by
  induction l with
  | nil => by_cases h : k = u <;> simp [aerase, alookup_nil, h]
  | cons e t ih =>
      obtain ⟨k', v'⟩ := e
      rw [aerase_cons]
      by_cases hk : k' = k
      · subst hk
        by_cases hu : k' = u
        · subst hu; simp [ih]
        · simp [ih, alookup_cons, hu]
      · by_cases hu : k' = u
        · subst hu
          have hku : ¬ k = k' := fun h => hk h.symm
          simp [hk, alookup_cons, hku, ih]
        · simp [hk, alookup_cons, hu, ih]

theorem alookup_isSome_of_mem_keys {α : Type} {l : List (String × α)} {u : String}
    (h : u ∈ l.map Prod.fst) : (alookup l u).isSome := by
  induction l with
  | nil => simp at h
  | cons e t ih =>
      obtain ⟨k, v⟩ := e
      rw [alookup_cons]
      by_cases hk : k = u
      · simp [hk]
      · simp only [List.map_cons, List.mem_cons] at h
        rcases h with h | h
        · exact absurd h.symm hk
        · simp [hk, ih h]

theorem aset_keys {α : Type} (l : List (String × α)) (k : String) (v : α) :
    (aset l k v).map Prod.fst = l.map Prod.fst := by
  induction l with
  | nil => rfl
  | cons e t ih =>
      obtain ⟨k', v'⟩ := e
      rw [aset_cons]
      by_cases h : k' = k <;> simp [h, ih]

theorem aerase_keys {α : Type} (l : List (String × α)) (k : String) :
    (aerase l k).map Prod.fst = (l.map Prod.fst).filter (fun u => !(u == k)) := by
  induction l with
  | nil => rfl
  | cons e t ih =>
      obtain ⟨k', v'⟩ := e
      rw [aerase_cons]
      by_cases h : k' = k <;> simp [h, ih]

/-! ## Theorems for claims C4 and C5 -/

/-- Claim C4.  Upsert is idempotent: a second `add_obj_from_data` with the
same raw data finds an equal content checksum, leaves the store exactly as
the first upsert left it, and returns the already-stored record with every
bookkeeping field untouched. -/
theorem add_obj_idempotent (m : K8sResourceManager) (d : ObjData)
    (now₁ now₂ : Time) (hns : d.name_space ≠ "") :
    ((m.add_obj_from_data d now₁).1.add_obj_from_data d now₂).1
      = (m.add_obj_from_data d now₁).1 ∧
    ((m.add_obj_from_data d now₁).1.add_obj_from_data d now₂).2
      = (m.add_obj_from_data d now₁).2 := by
  unfold K8sResourceManager.add_obj_from_data K8sResourceManager.add_obj
  have hcs : (mkK8sObject d m.resource).data_checksum = calculate_checksum_for_dict d := rfl
  have hdata : (mkK8sObject d m.resource).data = d := rfl
  cases hl : alookup m.objects (uidOf m.object_type (mkK8sObject d m.resource).data) with
  | none =>
      -- first call inserts; second call finds the freshly stored record
      simp only [hl]
      have hl2 : alookup (m.objects ++
          [(uidOf m.object_type (mkK8sObject d m.resource).data,
            { mkK8sObject d m.resource with added := now₁ })])
          (uidOf m.object_type (mkK8sObject d m.resource).data)
          = some { mkK8sObject d m.resource with added := now₁ } := by
        rw [alookup_append, hl]
        simp [alookup_cons]
      simp [hl2]
  | some old =>
      simp only [hl]
      by_cases hne : old.data_checksum ≠ (mkK8sObject d m.resource).data_checksum
      · -- first call replaces; second call sees an equal checksum
        simp only [if_pos hne]
        have hl2 : alookup (aset m.objects
            (uidOf m.object_type (mkK8sObject d m.resource).data)
            { mkK8sObject d m.resource with
              last_sent_zabbix_discovery := old.last_sent_zabbix_discovery
              last_sent_zabbix := old.last_sent_zabbix
              last_sent_web := old.last_sent_web
              added := old.added
              is_dirty_web := true
              is_dirty_zabbix := true })
            (uidOf m.object_type (mkK8sObject d m.resource).data)
            = some { mkK8sObject d m.resource with
              last_sent_zabbix_discovery := old.last_sent_zabbix_discovery
              last_sent_zabbix := old.last_sent_zabbix
              last_sent_web := old.last_sent_web
              added := old.added
              is_dirty_web := true
              is_dirty_zabbix := true } := by
          rw [alookup_aset, if_pos rfl, hl]
          rfl
        simp [hl2]
      · -- first call is already a no-op
        simp [hne, hl]

/-- Sample raw objects and stores used by concrete witnesses. -/
def sampleData : ObjData := ⟨"p", "n", none, none, "x"⟩

/-- Sample raw object with a different payload, hence different checksum. -/
def sampleDataNew : ObjData := ⟨"p", "n", none, none, "new"⟩

/-- Sample raw object under a different name. -/
def sampleDataQ : ObjData := ⟨"q", "n", none, none, "x"⟩

/-- A stored record for `sampleData` with clean flags and distinct timestamps. -/
def sampleOldRecord : K8sObject := ⟨false, false, 3, 4, 5, 6, "pods", ⟨"p", "n", none, none, "old"⟩, ⟨"p", "n", none, none, "old"⟩⟩

/-- A pods store holding `sampleOldRecord`. -/
def sampleStore : K8sResourceManager := ⟨"pods", "pod", [("pod_n_p", sampleOldRecord)]⟩

/-- An empty pods store. -/
def emptyPodsStore : K8sResourceManager := ⟨"pods", "pod", []⟩

/-- Claim C4 witness at a concrete store and raw object. -/
theorem add_obj_idempotent_witness :
    ((emptyPodsStore.add_obj_from_data sampleData 5).1.add_obj_from_data sampleData 9).1
      = (emptyPodsStore.add_obj_from_data sampleData 5).1 :=
  (add_obj_idempotent emptyPodsStore sampleData 5 9 (by decide)).1

/-- Claim C5.  A content-changing upsert preserves the prior `added`
timestamp, copies every `last_sent_*` timestamp forward from the old
record, forces both dirty flags, replaces payload and checksum, and stores
the result; `added` is set to the current time only on first admission. -/
theorem add_obj_update_semantics (m m₂ : K8sResourceManager) (d d₂ : ObjData)
    (now now₂ : Time) (old : K8sObject)
    (hold : alookup m.objects (uidOf m.object_type d) = some old)
    (hcs : old.data_checksum ≠ calculate_checksum_for_dict d)
    (hnew : alookup m₂.objects (uidOf m₂.object_type d₂) = none) :
    (m.add_obj_from_data d now).2.added = old.added ∧
    (m.add_obj_from_data d now).2.last_sent_zabbix = old.last_sent_zabbix ∧
    (m.add_obj_from_data d now).2.last_sent_web = old.last_sent_web ∧
    (m.add_obj_from_data d now).2.last_sent_zabbix_discovery
      = old.last_sent_zabbix_discovery ∧
    (m.add_obj_from_data d now).2.is_dirty_zabbix = true ∧
    (m.add_obj_from_data d now).2.is_dirty_web = true ∧
    (m.add_obj_from_data d now).2.data = d ∧
    (m.add_obj_from_data d now).2.data_checksum = calculate_checksum_for_dict d ∧
    alookup (m.add_obj_from_data d now).1.objects (uidOf m.object_type d)
      = some (m.add_obj_from_data d now).2 ∧
    (m₂.add_obj_from_data d₂ now₂).2.added = now₂ := by
  simp only [K8sResourceManager.add_obj_from_data, K8sResourceManager.add_obj, mkK8sObject,
    calculate_checksum_for_dict] at *
  simp only [hold, hnew, if_pos hcs]
  simp [alookup_aset, hold]

/-- Claim C5 witness: a concrete content update and a concrete first
admission. -/
theorem add_obj_update_semantics_witness :
    (sampleStore.add_obj_from_data sampleDataNew 100).2.added = 3 ∧
    (emptyPodsStore.add_obj_from_data sampleDataQ 42).2.added = 42 := by
  have h := add_obj_update_semantics sampleStore emptyPodsStore sampleDataNew sampleDataQ
    100 42 sampleOldRecord (by decide) (by decide) (by decide)
  exact ⟨h.1, h.2.2.2.2.2.2.2.2.2⟩

/-! ## Theorems for claims C2 and C10 -/

/-- Claim C2.  Discovery gating: when a kind has no entry in
`discovery_sent`, `send_data_to_zabbix` and `report_global_data_zabbix`
both return without delivering anything to the metric sink. -/
theorem discovery_gating (cfg : Config) (discovery_sent : List (String × Time))
    (resource : String) (obj : Option K8sObject)
    (metrics0 : Option (List ZabbixMetric)) (metricsOf : K8sObject → List ZabbixMetric)
    (services pods : K8sResourceManager)
    (containerMetricsOf : String → String → String → String → ContainerAgg →
      List ZabbixMetric)
    (h : alookup discovery_sent resource = none) :
    send_data_to_zabbix cfg discovery_sent resource obj metrics0 metricsOf = [] ∧
    report_global_data_zabbix cfg discovery_sent resource services pods
      containerMetricsOf = [] := by
  constructor
  · simp [send_data_to_zabbix, h]
  · simp [report_global_data_zabbix, h]

/-- Claim C2 witness: concrete blocked metric and aggregation sends. -/
theorem discovery_gating_witness :
    send_data_to_zabbix sampleConfig [] "services" none
      (some [⟨"k8s", "k", "v"⟩]) (fun _ => []) = [] ∧
    report_global_data_zabbix sampleConfig [] "services" emptyServicesStore
      emptyPodsStore (fun _ _ _ _ _ => []) = [] :=
  discovery_gating sampleConfig [] "services" none (some [⟨"k8s", "k", "v"⟩])
    (fun _ => []) emptyServicesStore emptyPodsStore (fun _ _ _ _ _ => []) rfl

/-- Claim C10.  Deleting by raw data with an absent uid leaves the store
untouched yet returns a freshly constructed record, so the DELETED branch
of the watch dispatcher still emits a lowercase "deleted" inventory call;
deleting the same absent uid by string raises KeyError instead. -/
theorem del_obj_ghost_semantics (cfg : Config) (discovery_sent : List (String × Time))
    (resource : String) (m : K8sResourceManager) (d : ObjData) (now : Time)
    (metricsOf : K8sObject → List ZabbixMetric)
    (habs : alookup m.objects (uidOf m.object_type d) = none)
    (hmatch : cfg.namespace_exclude_re d.name_space = false)
    (hweb : resource ∈ cfg.web_api_resources)
    (hen : cfg.web_api_enable = true) :
    (m.del_obj_by_data d).1 = m ∧
    (m.del_obj_by_data d).2 = mkK8sObject d m.resource ∧
    (watch_event_handler cfg discovery_sent resource m "DELETED" d now metricsOf).1 = m ∧
    (watch_event_handler cfg discovery_sent resource m "DELETED" d now metricsOf).2.2
      = [⟨resource, d.name, d.name_space, cfg.web_api_cluster, "deleted"⟩] ∧
    m.del_obj_by_uid (uidOf m.object_type d) = none := by
  have hdel : m.del_obj_by_data d = (m, mkK8sObject d m.resource) := by
    unfold K8sResourceManager.del_obj_by_data
    simp [habs, mkK8sObject]
  have h1 : (str_lower "DELETED" == "added" || str_lower "DELETED" == "modified") = false := by
    decide
  have h2 : (str_lower "DELETED" == "deleted") = true := by decide
  have hstep : watch_event_handler cfg discovery_sent resource m "DELETED" d now metricsOf
      = (m, [], delete_object cfg resource (mkK8sObject d m.resource)) := by
    simp only [watch_event_handler, hmatch, h1, h2, Bool.false_eq_true, if_false,
      if_true, hdel]
  refine ⟨by rw [hdel], by rw [hdel], by rw [hstep], ?_, ?_⟩
  · rw [hstep]
    simp [delete_object, send_to_web_api, hweb, hen, mkK8sObject]
  · unfold K8sResourceManager.del_obj_by_uid
    simp [habs]

/-- Claim C10 witness: deleting a never-admitted pod from an empty store. -/
theorem del_obj_ghost_semantics_witness :
    (emptyPodsStore.del_obj_by_data sampleData).1 = emptyPodsStore ∧
    (watch_event_handler sampleConfig [] "pods" emptyPodsStore "DELETED" sampleData 7
        sampleMetricsOf).2.2
      = [⟨"pods", "p", "n", "c1", "deleted"⟩] ∧
    emptyPodsStore.del_obj_by_uid "pod_n_p" = none := by
  have h := del_obj_ghost_semantics sampleConfig [] "pods" emptyPodsStore sampleData 7
    sampleMetricsOf (by decide) (by decide) (by decide) (by decide)
  exact ⟨h.1, h.2.2.2.1, h.2.2.2.2⟩

/-! ## Theorems for claim C9 -/

/-- Claim C9 counterexample: a 50-character slug truncated to
`maxlen = 40` comes back with 42 characters, exceeding the requested
maximum length. -/
theorem slugit_counterexample :
    (slugit "" "abcdefghijklmnopqrstuvwxyzabcdefghijklmnopqrstuvwx" 40).length = 42 ∧
    ¬ ((slugit "" "abcdefghijklmnopqrstuvwxyzabcdefghijklmnopqrstuvwx" 40).length ≤ 40) := by
  decide

/-- Claim C9 (amended).  A slug of length at most `maxlen` is returned
unchanged; a longer slug is replaced by a prefix and a suffix of itself
joined by "~", of total length `maxlen + 2` for even `maxlen` and
`maxlen + 1` for odd `maxlen` (so the result exceeds `maxlen` by one or
two characters rather than obeying it). -/
theorem slugit_spec (name_space name : String) (maxlen : Nat) (h2 : 2 ≤ maxlen) :
    ((slug_of name_space name).length ≤ maxlen →
      slugit name_space name maxlen = slug_of name_space name) ∧
    (maxlen < (slug_of name_space name).length →
      slugit name_space name maxlen
        = String.mk ((slug_of name_space name).data.take (maxlen / 2 - 1)
            ++ '~' :: (slug_of name_space name).data.drop
              ((slug_of name_space name).length - maxlen / 2 - 2)) ∧
      (slugit name_space name maxlen).length = maxlen + 2 - maxlen % 2) := by
  constructor
  · intro hle
    unfold slugit
    simp [hle]
  · intro hlt
    have hnle : ¬ (slug_of name_space name).length ≤ maxlen := by omega
    have hld : (slug_of name_space name).data.length = (slug_of name_space name).length :=
      rfl
    have hpp : Int.tdiv ((maxlen : Int) - 2) 2 = ((maxlen / 2 - 1 : Nat) : Int) := by
      have ha : ((maxlen : Int) - 2) = ((maxlen - 2 : Nat) : Int) := by omega
      have hb : ((2 : Int)) = ((2 : Nat) : Int) := by norm_num
      rw [ha, hb, ← Int.ofNat_tdiv]
      have hc : (maxlen - 2) / 2 = maxlen / 2 - 1 := by omega
      rw [hc]
    have hsp : ((slug_of name_space name).length : Int) - ((maxlen / 2 : Nat) : Int) - 2
        = (((slug_of name_space name).length - maxlen / 2 - 2 : Nat) : Int) := by
      have : maxlen / 2 + 2 ≤ (slug_of name_space name).length := by omega
      omega
    have hcast : ((slug_of name_space name).length : Int)
        = (((slug_of name_space name).length : Nat) : Int) := rfl
    have hres : slugit name_space name maxlen
        = String.mk ((slug_of name_space name).data.take (maxlen / 2 - 1)
            ++ '~' :: (slug_of name_space name).data.drop
              ((slug_of name_space name).length - maxlen / 2 - 2)) := by
      unfold slugit
      rw [if_neg hnle]
      simp only [pySliceTo, pySliceFrom, hpp, hsp]
      rw [if_neg (by omega), if_neg (by omega)]
      congr 1
    refine ⟨hres, ?_⟩
    rw [hres]
    have hmk : ∀ l : List Char, (String.mk l).length = l.length := fun _ => rfl
    rw [hmk, List.length_append, List.length_cons, List.length_take, List.length_drop]
    have h3 : (maxlen / 2 - 1) ⊓ (slug_of name_space name).data.length = maxlen / 2 - 1 := by
      rw [Nat.min_def]
      split <;> omega
    rw [h3]
    omega

/-- Claim C9 witness: a short slug passes through, a long slug is
truncated to 42 characters for `maxlen = 40`. -/
theorem slugit_spec_witness :
    slugit "ns" "short" 40 = "ns/short" ∧
    (slugit "ns" "abcdefghijklmnopqrstuvwxyzabcdefghijklmnopqrstuvwx" 40).length
      = 40 + 2 - 40 % 2 := by
  refine ⟨(slugit_spec "ns" "short" 40 (by decide)).1 (by decide), ?_⟩
  exact ((slugit_spec "ns" "abcdefghijklmnopqrstuvwxyzabcdefghijklmnopqrstuvwx" 40
    (by decide)).2 (by decide)).2

/-! ## Theorems for claim C3 -/

/-- The zabbix loop of `resend_data` when the kind has never been
discovered: every outdated record is stamped and cleaned, independently of
whether the collected batch is later delivered. -/
theorem resend_zabbix_fold_keys (cfg : Config) (discovery_sent : List (String × Time))
    (resource : String) (now : Time) (metricsOf : K8sObject → List ZabbixMetric)
    (h : alookup discovery_sent resource = none) :
    ∀ (l : List (String × K8sObject)) (acc : List (String × K8sObject) × List ZabbixMetric),
      (l.foldl (resend_zabbix_step cfg discovery_sent resource now metricsOf) acc).1
        = acc.1 ++ l.map (fun e =>
            if e.2.last_sent_zabbix < now - cfg.data_resend_interval then
              (e.1, { e.2 with last_sent_zabbix := now, is_dirty_zabbix := false })
            else e) := by
  intro l
  induction l with
  | nil => intro acc; simp
  | cons e t ih =>
      intro acc
      simp only [List.foldl_cons, List.map_cons]
      rw [ih]
      simp only [resend_zabbix_step, h]
      by_cases hd : e.2.last_sent_zabbix < now - cfg.data_resend_interval <;>
        simp [hd]

/-- The web loop of `resend_data` stamps `last_sent_web` and clears the
web dirty flag for every record. -/
theorem resend_web_fold_keys (cfg : Config) (resource : String) (now : Time) :
    ∀ (l : List (String × K8sObject)) (acc : List (String × K8sObject) × List WebApiCall),
      (l.foldl (resend_web_step cfg resource now) acc).1
        = acc.1 ++ l.map (fun e =>
            (e.1, { e.2 with last_sent_web := now, is_dirty_web := false })) := by
  intro l
  induction l with
  | nil => intro acc; simp
  | cons e t ih =>
      intro acc
      simp only [List.foldl_cons, List.map_cons]
      rw [ih]
      simp only [resend_web_step]
      simp

/-- Claim C3 (amended).  When discovery for the kind has not been
announced, a blocked send is dropped but the bookkeeping is still
updated: the resend loop delivers no batch yet stamps `last_sent_zabbix`
and clears `is_dirty_zabbix` on every outdated record, and a single-object
send that passes the rate limit does the same even though
`send_data_to_zabbix` silently dropped the metrics. -/
theorem blocked_send_clears_bookkeeping (cfg : Config)
    (discovery_sent : List (String × Time)) (resource : String)
    (m : K8sResourceManager) (o : K8sObject) (event_type : String) (now : Time)
    (metricsOf : K8sObject → List ZabbixMetric)
    (h : alookup discovery_sent resource = none)
    (hc : ¬ resource = "containers")
    (hrl : o.last_sent_zabbix < now - cfg.rate_limit_seconds) :
    (resend_data cfg discovery_sent resource (some m) now metricsOf).2.1 = [] ∧
    (resend_data cfg discovery_sent resource (some m) now metricsOf).1
      = some { m with objects := m.objects.map (fun e =>
          if e.2.last_sent_zabbix < now - cfg.data_resend_interval then
            (e.1, { e.2 with last_sent_zabbix := now, is_dirty_zabbix := false,
                             last_sent_web := now, is_dirty_web := false })
          else (e.1, { e.2 with last_sent_web := now, is_dirty_web := false })) } ∧
    (send_object cfg discovery_sent resource o event_type true false now metricsOf).2.1
      = [] ∧
    (send_object cfg discovery_sent resource o event_type true false now
      metricsOf).1.is_dirty_zabbix = false ∧
    (send_object cfg discovery_sent resource o event_type true false now
      metricsOf).1.last_sent_zabbix = now := by
  have hbe : (resource == "containers") = false := by
    simpa using hc
  have hso : send_object cfg discovery_sent resource o event_type true false now metricsOf
      = ({ o with last_sent_zabbix := now, is_dirty_zabbix := false }, [], []) := by
    simp [send_object, send_data_to_zabbix, h, hrl]
  refine ⟨?_, ?_, by rw [hso], by rw [hso], by rw [hso]⟩
  · simp only [resend_data, hbe, Bool.false_eq_true, if_false]
    by_cases he : m.objects.isEmpty
    · simp [he]
    · simp only [he, Bool.false_eq_true, if_false]
      split
      · simp [h]
      · rfl
  · simp only [resend_data, hbe, Bool.false_eq_true, if_false]
    by_cases he : m.objects.isEmpty
    · obtain ⟨r, t, objs⟩ := m
      simp only [List.isEmpty_iff] at he
      subst he
      simp
    · simp only [he, Bool.false_eq_true, if_false]
      rw [resend_web_fold_keys, resend_zabbix_fold_keys cfg discovery_sent resource now
        metricsOf h]
      simp only [List.nil_append, List.map_map]
      refine congrArg some (congrArg (fun l => { m with objects := l }) ?_)
      refine List.map_congr_left ?_
      intro e _
      by_cases hd : e.2.last_sent_zabbix < now - cfg.data_resend_interval <;>
        simp [hd, Function.comp]

/-- Claim C3 counterexample: with no discovery announced, resending one
dirty never-sent record delivers nothing to the metric sink yet clears
its zabbix dirty flag and advances its timestamp, so the record is not
re-emitted merely because the flag survived. -/
theorem blocked_resend_counterexample :
    (resend_data sampleConfig [] "pods" (some sampleDirtyStore) 1000 sampleMetricsOf).2.1
      = [] ∧
    ((resend_data sampleConfig [] "pods" (some sampleDirtyStore) 1000
        sampleMetricsOf).1.getD emptyPodsStore).objects.map
        (fun e => (e.2.is_dirty_zabbix, e.2.last_sent_zabbix))
      = [(false, 1000)] := by decide

/-- Claim C3 witness: concrete blocked single-object send. -/
theorem blocked_send_clears_bookkeeping_witness :
    (send_object sampleConfig [] "pods" sampleDirtyRecord "MODIFIED" true false 1000
      sampleMetricsOf).2.1 = [] ∧
    (send_object sampleConfig [] "pods" sampleDirtyRecord "MODIFIED" true false 1000
      sampleMetricsOf).1.is_dirty_zabbix = false := by
  have h := blocked_send_clears_bookkeeping sampleConfig [] "pods" sampleDirtyStore
    sampleDirtyRecord "MODIFIED" 1000 sampleMetricsOf rfl (by decide) (by decide)
  exact ⟨h.2.2.1, h.2.2.2.1⟩

/-! ## Theorems for claim C7 -/

/-- Outside the Pending phase the state loop only collects status values
and leaves both counter records untouched. -/
theorem state_fold_no_pending (phase : String) (hph : (phase == "Pending") = false) :
    ∀ (entries : List StateEntry) (sv : List String) (cur pd : ContainerAgg),
      entries.foldl (state_entry_step phase) (sv, cur, pd)
        = (entries.foldl (fun acc entry =>
            if terminated_entry_flag entry then acc ++ ["Terminated"] else acc) sv,
           cur, pd) := by
  intro entries
  induction entries with
  | nil => intro sv cur pd; rfl
  | cons e t ih =>
      intro sv cur pd
      simp only [List.foldl_cons]
      rw [← ih]
      simp only [state_entry_step, hph, Bool.false_and, Bool.false_eq_true, if_false]

/-- A state loop over entries none of which carries the terminated flag
leaves the collected status values unchanged. -/
theorem sv_fold_const (entries : List StateEntry) (sv : List String)
    (hno : ∀ e ∈ entries, terminated_entry_flag e = false) :
    entries.foldl (fun acc entry =>
        if terminated_entry_flag entry then acc ++ ["Terminated"] else acc) sv = sv := by
  induction entries with
  | nil => rfl
  | cons e t ih =>
      simp only [List.foldl_cons, hno e (List.mem_cons_self e t), Bool.false_eq_true,
        if_false]
      exact ih (fun e' he' => hno e' (List.mem_cons_of_mem e he'))

/-- Under unique state keys the collected status values are exactly
`["Terminated"]` when some entry carries the terminated flag and `[]`
otherwise. -/
theorem sv_fold_characterisation (entries : List StateEntry)
    (hnd : (entries.map StateEntry.status).Nodup) :
    entries.foldl (fun acc entry =>
        if terminated_entry_flag entry then acc ++ ["Terminated"] else acc) []
      = if entries.any terminated_entry_flag then ["Terminated"] else [] := by
  induction entries with
  | nil => rfl
  | cons e t ih =>
      simp only [List.map_cons, List.nodup_cons] at hnd
      by_cases hb : terminated_entry_flag e = true
      · have hterm : e.status = "terminated" := by
          have := hb
          simp only [terminated_entry_flag, Bool.and_eq_true, beq_iff_eq] at this
          exact this.1.2
        have hno : ∀ e' ∈ t, terminated_entry_flag e' = false := by
          intro e' he'
          by_contra hcon
          have hb' : terminated_entry_flag e' = true := by
            cases hx : terminated_entry_flag e' with
            | true => rfl
            | false => exact absurd hx hcon
          have hterm' : e'.status = "terminated" := by
            simp only [terminated_entry_flag, Bool.and_eq_true, beq_iff_eq] at hb'
            exact hb'.1.2
          exact hnd.1 (hterm ▸ hterm' ▸ List.mem_map_of_mem StateEntry.status he')
        simp only [List.foldl_cons, hb, if_true, List.nil_append, List.any_cons,
          Bool.true_or, if_true]
        exact sv_fold_const t ["Terminated"] hno
      · have hb' : terminated_entry_flag e = false := by
          cases hx : terminated_entry_flag e with
          | true => exact absurd hx hb
          | false => rfl
        simp only [List.foldl_cons, hb', Bool.false_eq_true, if_false, List.any_cons,
          Bool.false_or]
        exact ih hnd.2

/-- One container outside the Pending phase: the pod-level status becomes
exactly "ERROR: Terminated" iff the container has a bad terminated entry,
and then the projected ready flag is forced false; otherwise both are
left alone. -/
theorem process_container_spec (phase : String) (hph : (phase == "Pending") = false)
    (c : ContainerStatusRaw) (hnd : (c.state.map StateEntry.status).Nodup)
    (st : List (String × ContainerAgg) × ContainerAgg × Bool) :
    ((process_container phase st c).2.1.status
        = if has_bad_terminated c then "ERROR: Terminated" else st.2.1.status) ∧
    ((process_container phase st c).2.2
        = if has_bad_terminated c then false else st.2.2) := by
  have hI : ("ERROR: " ++ String.intercalate "," ["Terminated"]) = "ERROR: Terminated" := by
    decide
  simp only [process_container]
  rw [state_fold_no_pending phase hph]
  rw [sv_fold_characterisation c.state hnd]
  by_cases hb : c.state.any terminated_entry_flag = true
  · simp [has_bad_terminated, hb, hI]
  · have hb' : c.state.any terminated_entry_flag = false := by
      cases hx : c.state.any terminated_entry_flag with
      | true => exact absurd hx hb
      | false => rfl
    simp only [hb', Bool.false_eq_true, if_false, List.length_nil, gt_iff_lt,
      Nat.lt_irrefl, Nat.lt_irrefl]
    constructor
    · simp only [has_bad_terminated, hb', Bool.false_eq_true, if_false]
      split
      · simp
      · split <;> simp
    · simp [has_bad_terminated, hb']

/-- The container loop outside the Pending phase: the pod status ends as
"ERROR: Terminated" iff some container has a bad terminated entry, and
the ready flag survives iff none has. -/
theorem process_fold_spec (phase : String) (hph : (phase == "Pending") = false) :
    ∀ (cs : List ContainerStatusRaw),
      (∀ c ∈ cs, (c.state.map StateEntry.status).Nodup) →
      ∀ st : List (String × ContainerAgg) × ContainerAgg × Bool,
      ((cs.foldl (process_container phase) st).2.1.status
          = if cs.any has_bad_terminated then "ERROR: Terminated" else st.2.1.status) ∧
      ((cs.foldl (process_container phase) st).2.2
          = if cs.any has_bad_terminated then false else st.2.2) := by
  intro cs
  induction cs with
  | nil => intro _ st; simp
  | cons c t ih =>
      intro hnd st
      have hc := process_container_spec phase hph c (hnd c (List.mem_cons_self c t)) st
      have ht := ih (fun c' hc' => hnd c' (List.mem_cons_of_mem c hc'))
        (process_container phase st c)
      simp only [List.foldl_cons, List.any_cons]
      by_cases hb : has_bad_terminated c = true
      · constructor
        · rw [ht.1, hc.1]
          by_cases ha : t.any has_bad_terminated = true <;> simp [ha, hb]
        · rw [ht.2, hc.2]
          by_cases ha : t.any has_bad_terminated = true <;> simp [ha, hb]
      · have hb' : has_bad_terminated c = false := by
          cases hx : has_bad_terminated c with
          | true => exact absurd hx hb
          | false => rfl
        constructor
        · rw [ht.1, hc.1]
          simp [hb']
        · rw [ht.2, hc.2]
          simp [hb']

/-- Claim C7 (amended).  For a pod whose phase is not Pending: if some
container status carries a non-null terminated state with a reason other
than "Completed", the projected pod-level record has status exactly
"ERROR: Terminated" (capital T) and the projected ready field is false;
if no container does, the pod-level status is "OK".  State dictionaries
have unique keys, matching Python dict semantics. -/
theorem pod_terminated_projection (object_name ns : String) (p : PodRaw)
    (hph : (p.phase == "Pending") = false)
    (hnd : ∀ c ∈ p.container_statuses.getD [], (c.state.map StateEntry.status).Nodup) :
    ((p.container_statuses.getD []).any has_bad_terminated = true →
      (pod_resource_data object_name ns p).pod_data.status = "ERROR: Terminated" ∧
      (pod_resource_data object_name ns p).ready = false) ∧
    ((p.container_statuses.getD []).any has_bad_terminated = false →
      (pod_resource_data object_name ns p).pod_data.status = "OK") := by
  have h := process_fold_spec p.phase hph (p.container_statuses.getD []) hnd
    ([], initialAgg, true)
  constructor
  · intro hb
    constructor
    · show ((p.container_statuses.getD []).foldl (process_container p.phase)
        ([], initialAgg, true)).2.1.status = "ERROR: Terminated"
      rw [h.1, hb]
      rfl
    · show ((p.container_statuses.getD []).foldl (process_container p.phase)
        ([], initialAgg, true)).2.2 = false
      rw [h.2, hb]
      rfl
  · intro hb
    show ((p.container_statuses.getD []).foldl (process_container p.phase)
      ([], initialAgg, true)).2.1.status = "OK"
    rw [h.1, hb]
    rfl

/-- Claim C7 counterexample: a container terminated with reason OOMKilled
makes the projected pod status "ERROR: Terminated" with a capital T; the
status claimed by the specification, "ERROR: terminated", never occurs. -/
theorem pod_status_spelling_counterexample :
    (pod_resource_data "p" "n" samplePodTerminated).pod_data.status
      = "ERROR: Terminated" ∧
    ¬ ((pod_resource_data "p" "n" samplePodTerminated).pod_data.status
      = "ERROR: terminated") ∧
    (pod_resource_data "p" "n" samplePodTerminated).ready = false := by
  decide

/-- Claim C7 witness: the amended statement applied to a terminated pod
and to a healthy pod. -/
theorem pod_terminated_projection_witness :
    ((pod_resource_data "p" "n" samplePodTerminated).pod_data.status
        = "ERROR: Terminated" ∧
      (pod_resource_data "p" "n" samplePodTerminated).ready = false) ∧
    (pod_resource_data "q" "n" samplePodHealthy).pod_data.status = "OK" := by
  refine ⟨(pod_terminated_projection "p" "n" samplePodTerminated (by decide)
    (by decide)).1 (by decide), ?_⟩
  exact (pod_terminated_projection "q" "n" samplePodHealthy (by decide)
    (by decide)).2 (by decide)

/-! ## Theorems for claim C1 -/

theorem alookup_adset {α : Type} (l : List (String × α)) (k u : String) (v : α) :
    alookup (adset l k v) u = if k = u then some v else alookup l u := by
  unfold adset
  by_cases hp : (alookup l k).isSome
  · rw [if_pos hp, alookup_aset]
    by_cases hk : k = u
    · subst hk
      rw [Option.isSome_iff_exists] at hp
      obtain ⟨w, hw⟩ := hp
      simp [hw]
    · simp [hk]
  · rw [if_neg hp, alookup_append]
    have hnone : alookup l k = none := by
      cases hx : alookup l k with
      | none => rfl
      | some w => rw [hx] at hp; simp at hp
    by_cases hk : k = u
    · subst hk
      rw [hnone, alookup_cons]
      simp
    · rw [alookup_cons]
      simp only [hk, if_false, alookup_nil]
      cases alookup l u <;> simp

/-- Every record stored in the uid dictionary of
`get_uid_list_and_data` was freshly constructed from a list element whose
data satisfies `q`, and is keyed by its own uid. -/
theorem get_uid_data_lookup (m : K8sResourceManager) (q : ObjData → Prop) :
    ∀ (L : List ObjData) (acc : List String × List (String × K8sObject)),
      (∀ u o, alookup acc.2 u = some o →
        o = mkK8sObject o.data m.resource ∧ uidOf m.object_type o.data = u ∧ q o.data) →
      (∀ d ∈ L, q d) →
      ∀ u o, alookup (L.foldl (get_uid_step m) acc).2 u = some o →
        o = mkK8sObject o.data m.resource ∧ uidOf m.object_type o.data = u ∧ q o.data := by
  intro L
  induction L with
  | nil => intro acc hacc _ u o h; exact hacc u o h
  | cons d t ih =>
      intro acc hacc hq
      simp only [List.foldl_cons]
      apply ih
      · intro u o h
        simp only [get_uid_step] at h
        rw [alookup_adset] at h
        by_cases hk : uidOf m.object_type (mkK8sObject d m.resource).data = u
        · rw [if_pos hk] at h
          obtain rfl : mkK8sObject d m.resource = o := by injection h
          exact ⟨rfl, hk, hq d (List.mem_cons_self d t)⟩
        · rw [if_neg hk] at h
          exact hacc u o h
      · intro d' hd'
        exact hq d' (List.mem_cons_of_mem d hd')

/-- Every uid collected by `get_uid_list_and_data` has an entry in the
uid dictionary. -/
theorem get_uid_data_mem (m : K8sResourceManager) :
    ∀ (L : List ObjData) (acc : List String × List (String × K8sObject)),
      (∀ u ∈ acc.1, (alookup acc.2 u).isSome) →
      ∀ u ∈ (L.foldl (get_uid_step m) acc).1,
        (alookup (L.foldl (get_uid_step m) acc).2 u).isSome := by
  intro L
  induction L with
  | nil => intro acc h u hu; exact h u hu
  | cons d t ih =>
      intro acc hacc
      simp only [List.foldl_cons]
      apply ih
      intro u hu
      simp only [get_uid_step] at hu ⊢
      rw [alookup_adset]
      by_cases hk : uidOf m.object_type (mkK8sObject d m.resource).data = u
      · simp [hk]
      · rw [if_neg hk]
        rcases List.mem_append.mp hu with h1 | h2
        · exact hacc u h1
        · simp only [List.mem_singleton] at h2
          exact absurd h2.symm hk

/-- An upsert at an already present uid does not change the key list. -/
theorem add_obj_keys_of_present (m : K8sResourceManager) (o : K8sObject) (now : Time)
    (h : (alookup m.objects (uidOf m.object_type o.data)).isSome) :
    ((m.add_obj o now).1.objects.map Prod.fst) = m.objects.map Prod.fst := by
  unfold K8sResourceManager.add_obj
  cases hx : alookup m.objects (uidOf m.object_type o.data) with
  | none => rw [hx] at h; simp at h
  | some old =>
      simp only [hx]
      by_cases hne : old.data_checksum ≠ o.data_checksum
      · simp [hne, aset_keys]
      · simp [hne]

/-- An upsert never changes the resource label of the store. -/
theorem add_obj_object_type (m : K8sResourceManager) (o : K8sObject) (now : Time) :
    (m.add_obj o now).1.object_type = m.object_type := by
  simp only [K8sResourceManager.add_obj]
  cases alookup m.objects (uidOf m.object_type o.data) with
  | none => rfl
  | some old =>
      by_cases hne : old.data_checksum ≠ o.data_checksum <;> simp [hne]

/-- The relist loop never changes the resource label of the store. -/
theorem reconcile_step_object_type (uids : List String)
    (dataMap : List (String × K8sObject)) (now : Time)
    (acc : K8sResourceManager) (u : String) :
    (reconcile_step uids dataMap now acc u).object_type = acc.object_type := by
  unfold reconcile_step
  by_cases hu : u ∈ uids
  · simp only [hu, not_true_eq_false, if_false]
    cases alookup dataMap u with
    | none => rfl
    | some o => exact add_obj_object_type acc o now
  · simp only [hu, not_false_eq_true, if_true]
    unfold K8sResourceManager.del_obj_by_uid
    cases alookup acc.objects u with
    | none => rfl
    | some o => rfl

/-- The relist loop removes exactly the keys absent from the uid list and
keeps every other key in place, inserting nothing. -/
theorem reconcile_fold_keys (T : String) (uids : List String)
    (dataMap : List (String × K8sObject)) (now : Time)
    (hA : ∀ u o, alookup dataMap u = some o → uidOf T o.data = u) :
    ∀ (ks : List String) (acc : K8sResourceManager),
      acc.object_type = T → ks.Nodup →
      (∀ u ∈ ks, u ∈ acc.objects.map Prod.fst) →
      (acc.objects.map Prod.fst).Nodup →
      ((ks.foldl (reconcile_step uids dataMap now) acc).objects.map Prod.fst)
        = (acc.objects.map Prod.fst).filter (fun k => decide (k ∈ uids ∨ k ∉ ks)) := by
  intro ks
  induction ks with
  | nil =>
      intro acc _ _ _ _
      simp
  | cons u rest ih =>
      intro acc hT hnd hsub hknd
      simp only [List.foldl_cons]
      have hndr : rest.Nodup := (List.nodup_cons.mp hnd).2
      have hur : u ∉ rest := (List.nodup_cons.mp hnd).1
      by_cases hu : u ∈ uids
      · -- upsert branch: the key list is unchanged
        have hkeys : (reconcile_step uids dataMap now acc u).objects.map Prod.fst
            = acc.objects.map Prod.fst := by
          unfold reconcile_step
          simp only [hu, not_true_eq_false, if_false]
          cases hx : alookup dataMap u with
          | none => rfl
          | some o =>
              have huid : uidOf acc.object_type o.data = u := by
                rw [hT]; exact hA u o hx
              apply add_obj_keys_of_present
              rw [huid]
              exact alookup_isSome_of_mem_keys (hsub u (List.mem_cons_self u rest))
        rw [ih (reconcile_step uids dataMap now acc u)
              (by rw [reconcile_step_object_type, hT]) hndr
              (by intro v hv; rw [hkeys]; exact hsub v (List.mem_cons_of_mem u hv))
              (by rw [hkeys]; exact hknd)]
        rw [hkeys]
        apply List.filter_congr
        intro k _
        by_cases hk : k = u
        · subst hk
          simp [hu]
        · by_cases hku : k ∈ uids <;> by_cases hkr : k ∈ rest <;>
            simp [hk, hku, hkr]
      · -- delete branch: exactly this key disappears
        have hus : (alookup acc.objects u).isSome :=
          alookup_isSome_of_mem_keys (hsub u (List.mem_cons_self u rest))
        obtain ⟨o, ho⟩ := Option.isSome_iff_exists.mp hus
        have hstep : reconcile_step uids dataMap now acc u
            = { acc with objects := aerase acc.objects u } := by
          unfold reconcile_step
          simp only [hu, not_false_eq_true, if_true]
          unfold K8sResourceManager.del_obj_by_uid
          rw [ho]
        have hkeys : (reconcile_step uids dataMap now acc u).objects.map Prod.fst
            = (acc.objects.map Prod.fst).filter (fun k => !(k == u)) := by
          rw [hstep]
          exact aerase_keys acc.objects u
        rw [ih (reconcile_step uids dataMap now acc u)
              (by rw [reconcile_step_object_type, hT]) hndr
              (by
                intro v hv
                rw [hkeys, List.mem_filter]
                refine ⟨hsub v (List.mem_cons_of_mem u hv), ?_⟩
                have hvne : ¬ v = u := fun hveq => hur (hveq ▸ hv)
                simp [hvne])
              (by rw [hkeys]; exact hknd.filter _)]
        rw [hkeys, List.filter_filter]
        apply List.filter_congr
        intro k _
        by_cases hk : k = u
        · subst hk
          simp [hu]
        · by_cases hku : k ∈ uids <;> by_cases hkr : k ∈ rest <;>
            simp [hk, hku, hkr]

/-- Claim C1 (amended).  After the relist step of `update_discovery` the
key set of the store is the intersection of the previous key set with the
uids projected from the authoritative list: a uid already present whose
item is in the list is upserted in place, a uid absent from the list is
deleted, and an item of the list whose uid was not previously in the
store is NOT inserted. -/
theorem reconcile_keys (m : K8sResourceManager) (raw_list : List ObjData) (now : Time)
    (hnd : (m.objects.map Prod.fst).Nodup) :
    ((reconcile m raw_list now).objects.map Prod.fst)
      = (m.objects.map Prod.fst).filter
          (fun k => decide (k ∈ (get_uid_list_and_data m raw_list).1)) := by
  have hA : ∀ u o, alookup (get_uid_list_and_data m raw_list).2 u = some o →
      uidOf m.object_type o.data = u := by
    intro u o h
    exact ((get_uid_data_lookup m (fun _ => True) raw_list ([], [])
      (by intro u o h; simp [alookup_nil] at h) (by intro d _; trivial)) u o h).2.1
  simp only [reconcile]
  rw [reconcile_fold_keys m.object_type (get_uid_list_and_data m raw_list).1
    (get_uid_list_and_data m raw_list).2 now hA (m.objects.map Prod.fst) m rfl hnd
    (fun u hu => hu) hnd]
  apply List.filter_congr
  intro k hk
  simp [hk]

/-- Claim C1 counterexample: reconciling an empty store against a
one-item authoritative list inserts nothing, so the resulting key set is
empty rather than the projected uid set of the list. -/
theorem reconcile_no_insert_counterexample :
    (reconcile emptyPodsStore [sampleData] 50).objects = [] ∧
    (get_uid_list_and_data emptyPodsStore [sampleData]).1 = ["pod_n_p"] := by
  decide

/-- Claim C1 witness at a concrete one-record store. -/
theorem reconcile_keys_witness :
    ((reconcile sampleStore [sampleDataNew] 9).objects.map Prod.fst)
      = (sampleStore.objects.map Prod.fst).filter
          (fun k => decide (k ∈ (get_uid_list_and_data sampleStore [sampleDataNew]).1)) :=
  reconcile_keys sampleStore [sampleDataNew] 9 (by decide)

/-! ## Theorems for claim C6 -/

theorem alookup_mem {α : Type} {l : List (String × α)} {u : String} {v : α}
    (h : alookup l u = some v) : (u, v) ∈ l := by
  unfold alookup at h
  cases hf : l.find? (fun e => e.1 == u) with
  | none => rw [hf] at h; simp at h
  | some e =>
      rw [hf] at h
      have hmem := List.mem_of_find?_eq_some hf
      have hp := List.find?_some hf
      obtain ⟨k, w⟩ := e
      simp at h
      simp only [beq_iff_eq] at hp
      subst hp
      cases h
      exact hmem

/-- Cancellation of an underscore-separated concatenation whose left
parts are underscore-free. -/
theorem underscore_split {a b x y : List Char}
    (hu1 : '_' ∉ a) (hu2 : '_' ∉ b)
    (h : a ++ '_' :: x = b ++ '_' :: y) : a = b := by
  induction a generalizing b with
  | nil =>
      cases b with
      | nil => rfl
      | cons c bs =>
          simp only [List.nil_append, List.cons_append, List.cons.injEq] at h
          exact absurd (h.1 ▸ List.mem_cons_self c bs) hu2
  | cons c as ih =>
      cases b with
      | nil =>
          simp only [List.cons_append, List.nil_append, List.cons.injEq] at h
          exact absurd (h.1.symm ▸ List.mem_cons_self c as) hu1
      | cons c' bs =>
          simp only [List.cons_append, List.cons.injEq] at h
          obtain ⟨hc, ht⟩ := h
          rw [hc]
          have h1 : '_' ∉ as := fun hm => hu1 (List.mem_cons_of_mem c hm)
          have h2 : '_' ∉ bs := fun hm => hu2 (List.mem_cons_of_mem c' hm)
          rw [ih h1 h2 ht]

/-- Two well-formed raw objects sharing a uid share their namespace. -/
theorem uid_eq_name_space (T : String) (d₁ d₂ : ObjData)
    (hw1 : WfData d₁) (hw2 : WfData d₂)
    (heq : uidOf T d₁ = uidOf T d₂) : d₁.name_space = d₂.name_space := by
  unfold uidOf at heq
  rw [if_pos hw1.2, if_pos hw2.2] at heq
  have hdata := congrArg String.data heq
  simp only [String.data_append] at hdata
  simp only [List.append_assoc, List.cons_append, List.nil_append] at hdata
  have hcancel := List.append_cancel_left hdata
  have hcons : d₁.name_space.data ++ '_' :: d₁.name.data
      = d₂.name_space.data ++ '_' :: d₂.name.data := by
    injection hcancel
  exact String.ext (underscore_split hw1.1 hw2.1 hcons)

theorem storeinv_append (cfg : Config) (T : String)
    (l : List (String × K8sObject)) (u : String) (o : K8sObject)
    (hinv : StoreInvObjs cfg T l) (hu : u = uidOf T o.data)
    (hex : cfg.namespace_exclude_re o.data.name_space = false)
    (hw : WfData o.data) :
    StoreInvObjs cfg T (l ++ [(u, o)]) := by
  intro e he
  rcases List.mem_append.mp he with h1 | h2
  · exact hinv e h1
  · simp only [List.mem_singleton] at h2
    subst h2
    exact ⟨hu, hex, hw⟩

theorem storeinv_aset (cfg : Config) (T : String)
    (l : List (String × K8sObject)) (u : String) (o : K8sObject)
    (hinv : StoreInvObjs cfg T l) (hu : u = uidOf T o.data)
    (hex : cfg.namespace_exclude_re o.data.name_space = false)
    (hw : WfData o.data) :
    StoreInvObjs cfg T (aset l u o) := by
  intro e he
  unfold aset at he
  rcases List.mem_map.mp he with ⟨y, hy, hfy⟩
  by_cases hk : (y.1 == u) = true
  · rw [if_pos hk] at hfy
    subst hfy
    exact ⟨hu, hex, hw⟩
  · rw [if_neg hk] at hfy
    subst hfy
    exact hinv y hy

theorem storeinv_aerase (cfg : Config) (T : String)
    (l : List (String × K8sObject)) (u : String)
    (hinv : StoreInvObjs cfg T l) :
    StoreInvObjs cfg T (aerase l u) := by
  intro e he
  exact hinv e (List.mem_of_mem_filter he)

/-- A single-object dispatch never changes the raw data of the record. -/
theorem send_object_data (cfg : Config) (ds : List (String × Time)) (resource : String)
    (o : K8sObject) (et : String) (sz sw : Bool) (now : Time)
    (mof : K8sObject → List ZabbixMetric) :
    (send_object cfg ds resource o et sz sw now mof).1.data = o.data := by
  simp only [send_object]
  cases sz <;> cases sw <;> split_ifs <;> rfl

/-- An upsert whose raw data has an unexcluded well-formed namespace
preserves the store invariant, and the returned record inherits those
namespace properties. -/
theorem add_obj_preserves_inv (cfg : Config) (m : K8sResourceManager) (o : K8sObject)
    (now : Time) (hinv : StoreInv cfg m)
    (hex : cfg.namespace_exclude_re o.data.name_space = false)
    (hw : WfData o.data) :
    StoreInv cfg (m.add_obj o now).1 ∧
    cfg.namespace_exclude_re (m.add_obj o now).2.data.name_space = false ∧
    WfData (m.add_obj o now).2.data := by
  unfold StoreInv at *
  cases hx : alookup m.objects (uidOf m.object_type o.data) with
  | none =>
      have hres : m.add_obj o now
          = ({ m with objects := m.objects
                ++ [(uidOf m.object_type o.data, { o with added := now })] },
             { o with added := now }) := by
        simp [K8sResourceManager.add_obj, hx]
      rw [hres]
      exact ⟨storeinv_append cfg m.object_type m.objects _ _ hinv rfl hex hw, hex, hw⟩
  | some old =>
      by_cases hne : old.data_checksum ≠ o.data_checksum
      · have hres : m.add_obj o now
            = ({ m with
                  objects := aset m.objects (uidOf m.object_type o.data)
                      ({ o with
                          last_sent_zabbix_discovery := old.last_sent_zabbix_discovery,
                          last_sent_zabbix := old.last_sent_zabbix,
                          last_sent_web := old.last_sent_web,
                          added := old.added,
                          is_dirty_web := true, is_dirty_zabbix := true }) },
               ({ o with
                   last_sent_zabbix_discovery := old.last_sent_zabbix_discovery,
                   last_sent_zabbix := old.last_sent_zabbix,
                   last_sent_web := old.last_sent_web,
                   added := old.added,
                   is_dirty_web := true, is_dirty_zabbix := true })) := by
          simp [K8sResourceManager.add_obj, hx, hne]
        rw [hres]
        exact ⟨storeinv_aset cfg m.object_type m.objects _ _ hinv rfl hex hw, hex, hw⟩
      · have hres : m.add_obj o now = (m, old) := by
          simp [K8sResourceManager.add_obj, hx, hne]
        rw [hres]
        have hold := hinv _ (alookup_mem hx)
        exact ⟨hinv, hold.2.1, hold.2.2⟩

/-- The watch event dispatcher preserves the store invariant for every
event whose raw data is well formed. -/
theorem watch_preserves_inv (cfg : Config) (ds : List (String × Time))
    (resource : String) (mof : K8sObject → List ZabbixMetric)
    (m : K8sResourceManager) (et : String) (d : ObjData) (now : Time)
    (hinv : StoreInv cfg m) (hw : WfData d) :
    StoreInv cfg (watch_event_handler cfg ds resource m et d now mof).1 := by
  unfold watch_event_handler
  cases hex : cfg.namespace_exclude_re d.name_space with
  | true => simp only [hex, if_true]; exact hinv
  | false =>
      simp only [hex, Bool.false_eq_true, if_false]
      by_cases hadd : (str_lower et == "added" || str_lower et == "modified") = true
      · simp only [hadd, if_true]
        have hA : StoreInv cfg (m.add_obj_from_data d now).1 ∧
            cfg.namespace_exclude_re
              (m.add_obj_from_data d now).2.data.name_space = false ∧
            WfData (m.add_obj_from_data d now).2.data :=
          add_obj_preserves_inv cfg m (mkK8sObject d m.resource) now hinv hex hw
        by_cases hdirty : ((m.add_obj_from_data d now).2.is_dirty_zabbix
            || (m.add_obj_from_data d now).2.is_dirty_web) = true
        · simp only [hdirty, if_true]
          have hot : (m.add_obj_from_data d now).1.object_type = m.object_type :=
            add_obj_object_type m (mkK8sObject d m.resource) now
          unfold StoreInv
          simp only []
          rw [hot]
          apply storeinv_aset
          · have := hA.1
            unfold StoreInv at this
            rw [hot] at this
            exact this
          · rw [send_object_data]
          · rw [send_object_data]
            exact hA.2.1
          · rw [send_object_data]
            exact hA.2.2
        · simp only [hdirty, Bool.false_eq_true, if_false]
          exact hA.1
      · simp only [hadd, Bool.false_eq_true, if_false]
        by_cases hdel : (str_lower et == "deleted") = true
        · simp only [hdel, if_true]
          unfold K8sResourceManager.del_obj_by_data
          by_cases hp : (alookup m.objects
              (uidOf m.object_type (mkK8sObject d m.resource).data)).isSome
          · rw [if_pos hp]
            exact storeinv_aerase cfg m.object_type m.objects _ hinv
          · rw [if_neg hp]
            exact hinv
        · simp only [hdel, Bool.false_eq_true, if_false]
          exact hinv

/-- The relist loop preserves the store invariant: deletions only remove
entries, and refreshed records share the uid, hence the namespace, of the
invariant-satisfying entry they replace. -/
theorem reconcile_fold_inv (cfg : Config) (T : String) (uids : List String)
    (dataMap : List (String × K8sObject)) (now : Time)
    (M : List (String × K8sObject)) (hM : StoreInvObjs cfg T M)
    (hD : ∀ u o, alookup dataMap u = some o → uidOf T o.data = u ∧ WfData o.data) :
    ∀ (ks : List String) (acc : K8sResourceManager),
      acc.object_type = T →
      (∀ u ∈ ks, u ∈ M.map Prod.fst) →
      StoreInv cfg acc →
      StoreInv cfg (ks.foldl (reconcile_step uids dataMap now) acc) := by
  intro ks
  induction ks with
  | nil => intro acc _ _ h; exact h
  | cons u rest ih =>
      intro acc hT hsub hacc
      simp only [List.foldl_cons]
      refine ih _ (by rw [reconcile_step_object_type]; exact hT)
        (fun v hv => hsub v (List.mem_cons_of_mem u hv)) ?_
      unfold reconcile_step
      by_cases hu : u ∈ uids
      · simp only [hu, not_true_eq_false, if_false]
        cases hx : alookup dataMap u with
        | none => exact hacc
        | some o =>
            have hmem : u ∈ M.map Prod.fst := hsub u (List.mem_cons_self u rest)
            obtain ⟨old, hold⟩ :=
              Option.isSome_iff_exists.mp (alookup_isSome_of_mem_keys hmem)
            have holdprops := hM _ (alookup_mem hold)
            have ho := hD u o hx
            have hns : o.data.name_space = old.data.name_space := by
              apply uid_eq_name_space T _ _ ho.2 holdprops.2.2
              rw [ho.1]
              exact holdprops.1
            have hexo : cfg.namespace_exclude_re o.data.name_space = false := by
              rw [hns]
              exact holdprops.2.1
            exact (add_obj_preserves_inv cfg acc o now hacc hexo ho.2).1
      · simp only [hu, not_false_eq_true, if_true]
        unfold K8sResourceManager.del_obj_by_uid
        cases alookup acc.objects u with
        | none => exact hacc
        | some o => exact storeinv_aerase cfg acc.object_type acc.objects u hacc

/-- Reconciling any well-formed authoritative list preserves the store
invariant. -/
theorem reconcile_preserves_inv (cfg : Config) (m : K8sResourceManager)
    (raw_list : List ObjData) (now : Time)
    (hinv : StoreInv cfg m) (hwf : ∀ x ∈ raw_list, WfData x) :
    StoreInv cfg (reconcile m raw_list now) := by
  simp only [reconcile]
  have hD : ∀ u o, alookup (get_uid_list_and_data m raw_list).2 u = some o →
      uidOf m.object_type o.data = u ∧ WfData o.data := by
    intro u o h
    have hg := get_uid_data_lookup m WfData raw_list ([], [])
      (by intro u o h; simp [alookup_nil] at h) hwf u o h
    exact ⟨hg.2.1, hg.2.2⟩
  exact reconcile_fold_inv cfg m.object_type (get_uid_list_and_data m raw_list).1
    (get_uid_list_and_data m raw_list).2 now m.objects hinv hD
    (m.objects.map Prod.fst) m rfl (fun u hu => hu) hinv

/-- Any well-formed trace of watch events and relists preserves the
store invariant. -/
theorem run_steps_inv (cfg : Config) (ds : List (String × Time)) (resource : String)
    (mof : K8sObject → List ZabbixMetric) :
    ∀ (steps : List DaemonStep) (m : K8sResourceManager),
      StoreInv cfg m → (∀ s ∈ steps, WfStep s) →
      StoreInv cfg (run_steps cfg ds resource mof m steps) := by
  intro steps
  induction steps with
  | nil => intro m h _; exact h
  | cons s t ih =>
      intro m hm hwf
      simp only [run_steps, List.foldl_cons]
      have hstep : StoreInv cfg (apply_step cfg ds resource mof m s) := by
        cases s with
        | watchEv et obj now =>
            exact watch_preserves_inv cfg ds resource mof m et obj now hm
              (hwf _ (List.mem_cons_self _ t))
        | relist raw_list now =>
            exact reconcile_preserves_inv cfg m raw_list now hm
              (hwf _ (List.mem_cons_self _ t))
      exact ih (apply_step cfg ds resource mof m s) hstep
        (fun s' hs' => hwf s' (List.mem_cons_of_mem s hs'))

/-- Claim C6 (amended).  Over any trace of watch events and relists whose
namespaces are nonempty and underscore-free, starting from an empty
store, no record with an excluded namespace is ever admitted; and a watch
event whose namespace matches the filter leaves the store untouched and
produces no sink call.  (Namespaces containing an underscore can collide
on the uid encoding and defeat the filter through the relist path, see
the counterexample.) -/
theorem namespace_exclusion (cfg : Config) (discovery_sent : List (String × Time))
    (resource R T : String) (metricsOf : K8sObject → List ZabbixMetric)
    (steps : List DaemonStep) (m₂ : K8sResourceManager) (et : String) (d₂ : ObjData)
    (now₂ : Time)
    (hwf : ∀ s ∈ steps, WfStep s)
    (hmatch : cfg.namespace_exclude_re d₂.name_space = true) :
    (∀ e ∈ (run_steps cfg discovery_sent resource metricsOf
        ⟨R, T, []⟩ steps).objects,
      cfg.namespace_exclude_re e.2.data.name_space = false) ∧
    watch_event_handler cfg discovery_sent resource m₂ et d₂ now₂ metricsOf
      = (m₂, [], []) := by
  constructor
  · have hinv := run_steps_inv cfg discovery_sent resource metricsOf steps
      ⟨R, T, []⟩ (by intro e he; simp at he) hwf
    intro e he
    exact (hinv e he).2.1
  · unfold watch_event_handler
    simp [hmatch]

/-- Claim C6 counterexample: with exclusion pattern `ba_d`, a pod of
namespace `ba` named `d_x` is admitted by a watch event; a later relist
whose list holds a pod of the excluded namespace `ba_d` named `x`
collides on the uid `pod_ba_d_x` and replaces the record, admitting an
excluded-namespace record into the store. -/
theorem namespace_exclusion_counterexample :
    ((run_steps exclConfig [] "pods" (fun _ => []) ⟨"pods", "pod", []⟩
        [DaemonStep.watchEv "ADDED" collideData1 1000,
         DaemonStep.relist [collideData2] 2000]).objects.map
        (fun e => e.2.data.name_space)) = ["ba_d"] ∧
    exclConfig.namespace_exclude_re "ba_d" = true := by
  decide

/-- Claim C6 witness: a watch event in an excluded namespace is dropped
without touching the store or the sinks. -/
theorem namespace_exclusion_witness :
    watch_event_handler exclConfig [] "pods" emptyPodsStore "ADDED" collideData2 5
      (fun _ => []) = (emptyPodsStore, [], []) :=
  (namespace_exclusion exclConfig [] "pods" "pods" "pod" (fun _ => [])
    [DaemonStep.watchEv "ADDED" collideData1 1000] emptyPodsStore "ADDED"
    collideData2 5
    (by
      intro s hs
      rw [List.mem_singleton] at hs
      subst hs
      exact ⟨by decide, by decide⟩)
    (by decide)).2

end K8sZabbix
